import Mathlib

/-!
# Verification of the aibulletin crawl-and-summarize pipeline

Shallow embedding of the Netlify serverless crawlers in the `aibulletin`
repository, and proofs about them.  The embedded functions are translated
from the JavaScript sources:

* `netlify/functions/crawl-and-summarize.js` — the cheerio/axios crawler
  (`extractTextFromPDF`, `crawlUrl`, the handler's crawl phase) and, after
  the document separator in that file, the second handler variant with the
  module-level `savedData` state (`extractContent`, `handler`).
* `netlify/functions/crawl-and-summarize-simple.js` — `isPdfUrl` and the
  same-hostname sublink filter inside its `crawlUrl`.
* `unnamed/part_002` — the puppeteer crawler with the elapsed-time budget
  (`crawlUrl` with `startTime`/`maxElapsedMs`, and the handler's URL loop).
* `unnamed/part_003` — the reduced cheerio crawler whose handler truncates
  the seed list to two URLs.

Network, DOM evaluation and the OpenAI call are modelled as explicit
"world" parameters: a fetch either yields the text (and href list) the
JavaScript would have extracted at that point, or the message of the error
it would have thrown.  JavaScript string primitives used by the sources
(`toLowerCase`, `endsWith`, `includes`, `startsWith`, `substring`, `trim`)
are embedded as executable functions on `List Char`, which agree with the
JavaScript semantics on the ASCII strings appearing in this development.
-/

namespace AB

/-! ## JavaScript string primitives -/

/-- ASCII lower-casing of one character, models the effect of
`String.prototype.toLowerCase` on ASCII input. -/
def lowerChar (c : Char) : Char :=
  if 'A' ≤ c ∧ c ≤ 'Z' then Char.ofNat (c.toNat + 32) else c

/-- Embeds `s.toLowerCase()` for ASCII strings. -/
def jsToLower (s : String) : String := ⟨s.data.map lowerChar⟩

/-- `listStarts p l` is true when `p` is an initial segment of `l`. -/
def listStarts : List Char → List Char → Bool
  | [], _ => true
  | _ :: _, [] => false
  | p :: ps, c :: cs => p == c && listStarts ps cs

/-- Embeds `s.startsWith(pat)`. -/
def jsStartsWith (s pat : String) : Bool := listStarts pat.data s.data

/-- Embeds `s.endsWith(pat)`. -/
def jsEndsWith (s pat : String) : Bool := listStarts pat.data.reverse s.data.reverse

/-- `listHasSeq p l` is true when `p` occurs contiguously inside `l`. -/
def listHasSeq (p : List Char) : List Char → Bool
  | [] => listStarts p []
  | c :: cs => listStarts p (c :: cs) || listHasSeq p cs

/-- Embeds `s.includes(pat)`. -/
def jsIncludes (s pat : String) : Bool := listHasSeq pat.data s.data

/-- Embeds `s.substring(0, n)` for the ASCII strings used here
(JavaScript counts UTF-16 units; on ASCII these coincide with characters). -/
def jsTake (s : String) (n : Nat) : String := ⟨s.data.take n⟩

/-- JavaScript whitespace test for the characters relevant to `trim`. -/
def isWs (c : Char) : Bool := c == ' ' || c == '\n' || c == '\t' || c == '\r'

/-- Embeds `s.trim()`. -/
def jsTrim (s : String) : String :=
  ⟨((s.data.dropWhile isWs).reverse.dropWhile isWs).reverse⟩

/-! ## URL parsing

The sources call the WHATWG `new URL(u)` constructor for its `hostname`
and `pathname` fields, and for the fact that it throws on strings without
a scheme.  We embed the fragment of that constructor that covers the
absolute `http(s)` URLs (no userinfo, no port) used in this development:
everything up to `://` is the scheme, the host runs to the first `/`, `:`,
`?` or `#`, and the pathname runs from the first `/` to the first `?` or
`#` (defaulting to `/`).  A string with no `://` separator is rejected
(`none`), modelling the `TypeError` the constructor throws. -/

/-- Drop through the first `://`; `none` models the `TypeError` thrown by
`new URL` on strings without a scheme separator. -/
def afterScheme : List Char → Option (List Char)
  | [] => none
  | ':' :: '/' :: '/' :: rest => some rest
  | _ :: rest => afterScheme rest

/-- Embeds `new URL(url).hostname` for the URLs used here. -/
def hostOf (url : String) : Option String :=
  (afterScheme url.data).map fun r =>
    ⟨r.takeWhile fun c => !(c == '/' || c == ':' || c == '?' || c == '#')⟩

/-- Embeds `new URL(url).pathname` for the URLs used here. -/
def pathnameOf (url : String) : Option String :=
  (afterScheme url.data).map fun r =>
    let rest := r.dropWhile fun c => !(c == '/' || c == '?' || c == '#')
    let path := rest.takeWhile fun c => !(c == '?' || c == '#')
    if path.isEmpty then "/" else ⟨path⟩

/-! ## Classifiers -/

/-- Embeds the PDF test of `crawl-and-summarize.js` line 40 (and
`unnamed/part_003` line 46): `url.toLowerCase().endsWith('.pdf')`.
It inspects the whole URL string, not the path. -/
def pdfSuffixTest (url : String) : Bool := jsEndsWith (jsToLower url) ".pdf"

/-- Embeds `isPdfUrl` of `crawl-and-summarize-simple.js` lines 487–490 and
`unnamed/part_002` lines 37–40:

    const parsed = new URL(url);
    return parsed.pathname.toLowerCase().endsWith('.pdf') ||
           parsed.pathname.toLowerCase().includes('pdf');

`none` models the `TypeError` that `new URL` throws on an invalid URL. -/
def isPdfUrl (url : String) : Option Bool :=
  (pathnameOf url).map fun p =>
    jsEndsWith (jsToLower p) ".pdf" || jsIncludes (jsToLower p) "pdf"

/-! ## The main crawler: `crawl-and-summarize.js`, lines 12–85 and 133–138

The network is a `World`:

* `fetchHtml u` — outcome of `axios.get(u)` followed by the cheerio
  extraction at lines 52–64: on success, the cleaned body text together
  with the list of `href` attribute values of `a[href]` elements;
  `Except.error m` when axios or cheerio throws with message `m`.
* `fetchPdf u` — outcome of the arraybuffer GET plus `pdf-parse` inside
  `extractTextFromPDF` (lines 12–26); `Except.error m` when either throws.
* `resolve l base` — `new URL(l, base).href`; `none` when the constructor
  throws.  In the concrete worlds below every href is already an absolute
  normalized URL, on which the constructor acts as the identity.
-/

/-- The network/DOM collaborator of the main crawler. -/
structure World where
  fetchHtml : String → Except String (String × List String)
  fetchPdf : String → Except String String
  resolve : String → String → Option String

/-- Kind of a processed source, the spec's `SourceResult.kind`. -/
inductive SKind where
  | html
  | pdf
  | error
deriving DecidableEq, Repr

/-- Ghost record of one URL the crawler processed (one per execution of
`visited.add(url)` in `crawlUrl`): the URL, the `depth` argument it was
processed at, the branch outcome, and the text produced for it. -/
structure CrawlRec where
  url : String
  depth : Nat
  kind : SKind
  text : String
deriving DecidableEq, Repr

/-- Result of one `crawlUrl` call: the returned text, the visited set
after the call (a Set of strings in the source, embedded as the list of
its elements, most recently inserted first), and the ghost trace of
processed URLs. -/
structure CrawlRes where
  text : String
  visited : List String
  recs : List CrawlRec
deriving DecidableEq, Repr

/-- Embeds `extractTextFromPDF` (lines 12–26): on error the function
catches and returns the message as text.  The `SKind` is ghost. -/
def extractTextFromPDF (w : World) (pdfUrl : String) : String × SKind :=
  match w.fetchPdf pdfUrl with
  | .ok t => (t, .pdf)
  | .error m => ("Error processing PDF: " ++ m, .error)

/-- Embeds the `for (const link of links.slice(0, 5))` loop of `crawlUrl`
(lines 67–77).  `next` is the recursive `crawlUrl` call at `depth + 1`;
the `try`/`catch` around `new URL(link, baseUrl)` is the `none` case of
`resolve`.  The text accumulates `'\n\n' + linkText` for each followed
link, and the visited set threads through sibling iterations. -/
def followLinks (w : World) (next : String → List String → CrawlRes) :
    List String → String → List String → String → CrawlRes
  | [], _, visited, text => ⟨text, visited, []⟩
  | l :: ls, base, visited, text =>
    match w.resolve l base with
    | none => followLinks w next ls base visited text
    | some abs =>
      if jsStartsWith abs "http" && !visited.contains abs then
        let c := next abs visited
        let r := followLinks w next ls base c.visited (text ++ "\n\n" ++ c.text)
        ⟨r.text, r.visited, c.recs ++ r.recs⟩
      else
        followLinks w next ls base visited text

/-- Embeds `crawlUrl(url, depth, maxDepth, visited)` of
`crawl-and-summarize.js` lines 29–85.  The `fuel` argument only makes the
recursion structural; every run below instantiates it so that it is never
exhausted on a path the JavaScript reaches (recursion stops at
`depth = maxDepth` after at most `maxDepth` nested calls). -/
def crawlUrl (w : World) : Nat → String → Nat → Nat → List String → CrawlRes
  | 0, _, _, _, visited => ⟨"", visited, []⟩
  | fuel + 1, url, depth, maxDepth, visited =>
    if depth > maxDepth || visited.contains url then ⟨"", visited, []⟩
    else
      let visited1 := url :: visited
      if pdfSuffixTest url then
        let p := extractTextFromPDF w url
        ⟨p.1, visited1, [⟨url, depth, p.2, p.1⟩]⟩
      else
        match w.fetchHtml url with
        | .error m =>
          let t := "Error crawling " ++ url ++ ": " ++ m
          ⟨t, visited1, [⟨url, depth, .error, t⟩]⟩
        | .ok (text, links) =>
          if depth < maxDepth then
            let r := followLinks w (fun a v => crawlUrl w fuel a (depth + 1) maxDepth v)
              (links.take 5) url visited1 text
            ⟨r.text, r.visited, ⟨url, depth, .html, text⟩ :: r.recs⟩
          else
            ⟨text, visited1, [⟨url, depth, .html, text⟩]⟩

/-- Embeds the crawl phase of the main handler (lines 133–138):

    const crawlPromises = urls.map(url =>
      crawlUrl(url, 1, follow_links ? max_depth : 1, new Set())
    );
    const crawledTexts = await Promise.all(crawlPromises);

Each seed URL gets a fresh `new Set()`, so the seed crawls are
independent and `Promise.all` over them is their sequential `map`. -/
def crawlPhaseMain (w : World) (urls : List String) (fl : Bool) (maxDepth : Nat) :
    List CrawlRes :=
  urls.map fun u => crawlUrl w ((if fl then maxDepth else 1) + 1) u 1 (if fl then maxDepth else 1) []

/-- All ghost records of a crawl phase, over all seeds. -/
def allRecs (rs : List CrawlRes) : List CrawlRec := rs.flatMap (·.recs)

/-! ## Invariants of the main crawler -/

/-- Any per-record predicate propagates through the link loop: if every
recursive call satisfies it, so does the loop's combined trace. -/
theorem followLinks_recs_pred {w : World} {next : String → List String → CrawlRes}
    {p : CrawlRec → Prop} (hnext : ∀ a v, ∀ r ∈ (next a v).recs, p r) :
    ∀ (ls : List String) (base : String) (visited : List String) (text : String),
      ∀ r ∈ (followLinks w next ls base visited text).recs, p r := by
  intro ls
  induction ls with
  | nil =>
    intro base visited text r hr
    simp [followLinks] at hr
  | cons l ls ih =>
    intro base visited text r hr
    rw [followLinks] at hr
    cases hres : w.resolve l base with
    | none =>
      rw [hres] at hr
      exact ih base visited text r hr
    | some abs =>
      rw [hres] at hr
      dsimp only at hr
      by_cases hk : (jsStartsWith abs "http" && !visited.contains abs) = true
      · rw [if_pos hk] at hr
        simp only [List.mem_append] at hr
        rcases hr with hr | hr
        · exact hnext abs visited r hr
        · exact ih base _ _ r hr
      · rw [if_neg hk] at hr
        exact ih base visited text r hr

/-- Every record a `crawlUrl` call produces has `depth ≤ maxDepth`:
the guard at line 30 rejects calls past `maxDepth`, and recursive calls
only happen at `depth + 1` when `depth < maxDepth`. -/
theorem crawlUrl_depth_le (w : World) :
    ∀ (fuel : Nat) (url : String) (depth maxDepth : Nat) (visited : List String),
      ∀ r ∈ (crawlUrl w fuel url depth maxDepth visited).recs, r.depth ≤ maxDepth := by
  intro fuel
  induction fuel with
  | zero =>
    intro url depth maxDepth visited r hr
    simp [crawlUrl] at hr
  | succ fuel ih =>
    intro url depth maxDepth visited r hr
    rw [crawlUrl] at hr
    split at hr
    · simp at hr
    · next hguard =>
      have hdep : depth ≤ maxDepth := by
        simp only [Bool.or_eq_true, decide_eq_true_eq, not_or] at hguard
        omega
      simp only [] at hr
      split at hr
      · simp at hr
        rw [hr]
        exact hdep
      · split at hr
        · simp at hr
          rw [hr]
          exact hdep
        · split at hr
          · simp only [List.mem_cons] at hr
            rcases hr with hr | hr
            · rw [hr]
              exact hdep
            · exact followLinks_recs_pred (fun a v => ih a (depth + 1) maxDepth v) _ _ _ _ r hr
          · simp at hr
            rw [hr]
            exact hdep

/-- Every record a `crawlUrl` call produces has depth at least the entry
depth. -/
theorem crawlUrl_depth_ge (w : World) :
    ∀ (fuel : Nat) (url : String) (depth maxDepth : Nat) (visited : List String),
      ∀ r ∈ (crawlUrl w fuel url depth maxDepth visited).recs, depth ≤ r.depth := by
  intro fuel
  induction fuel with
  | zero =>
    intro url depth maxDepth visited r hr
    simp [crawlUrl] at hr
  | succ fuel ih =>
    intro url depth maxDepth visited r hr
    rw [crawlUrl] at hr
    split at hr
    · simp at hr
    · simp only [] at hr
      split at hr
      · simp at hr
        rw [hr]
      · split at hr
        · simp at hr
          rw [hr]
        · split at hr
          · simp only [List.mem_cons] at hr
            rcases hr with hr | hr
            · rw [hr]
            · have := followLinks_recs_pred
                (fun a v => ih a (depth + 1) maxDepth v) _ _ _ _ r hr
              omega
          · simp at hr
            rw [hr]

/-- Shape of a `crawlUrl` trace: either nothing was processed, or the
head record is the entry URL at the entry depth and all remaining records
are strictly deeper. -/
theorem crawlUrl_shape (w : World) (fuel : Nat) (url : String) (depth maxDepth : Nat)
    (visited : List String) :
    (crawlUrl w fuel url depth maxDepth visited).recs = [] ∨
      ∃ k t rest,
        (crawlUrl w fuel url depth maxDepth visited).recs = ⟨url, depth, k, t⟩ :: rest ∧
        ∀ r ∈ rest, depth + 1 ≤ r.depth := by
  cases fuel with
  | zero => left; simp [crawlUrl]
  | succ fuel =>
    rw [crawlUrl]
    split
    · left; rfl
    · simp only []
      split
      · right
        exact ⟨_, _, [], rfl, by simp⟩
      · split
        · right
          exact ⟨.error, _, [], rfl, by simp⟩
        · split
          · right
            refine ⟨.html, _, _, rfl, ?_⟩
            intro r hr
            exact followLinks_recs_pred
              (fun a v => crawlUrl_depth_ge w fuel a (depth + 1) maxDepth v) _ _ _ _ r hr
          · right
            exact ⟨.html, _, [], rfl, by simp⟩

/-- The visited-set invariant: after a call, the visited set is exactly
the URLs of the newly produced records (most recent first) on top of the
incoming set, and an initially duplicate-free set stays duplicate-free. -/
def VisInv (v : List String) (res : CrawlRes) : Prop :=
  res.visited = (res.recs.map (·.url)).reverse ++ v ∧ (v.Nodup → res.visited.Nodup)

/-- The link loop preserves the visited-set invariant. -/
theorem followLinks_visInv {w : World} {next : String → List String → CrawlRes}
    (hnext : ∀ a v, VisInv v (next a v)) :
    ∀ (ls : List String) (base : String) (visited : List String) (text : String),
      VisInv visited (followLinks w next ls base visited text) := by
  intro ls
  induction ls with
  | nil =>
    intro base visited text
    constructor <;> simp [followLinks]
  | cons l ls ih =>
    intro base visited text
    rw [followLinks]
    cases hres : w.resolve l base with
    | none => exact ih base visited text
    | some abs =>
      dsimp only
      by_cases hk : (jsStartsWith abs "http" && !visited.contains abs) = true
      · rw [if_pos hk]
        obtain ⟨hv1, hn1⟩ := hnext abs visited
        obtain ⟨hv2, hn2⟩ := ih base (next abs visited).visited
          (text ++ "\n\n" ++ (next abs visited).text)
        refine ⟨?_, ?_⟩
        · dsimp only
          rw [hv2, hv1, List.map_append, List.reverse_append, List.append_assoc]
        · intro hnd
          exact hn2 (hn1 hnd)
      · rw [if_neg hk]
        exact ih base visited text

/-- `crawlUrl` satisfies the visited-set invariant: each call appends
exactly the URLs it processed to the visited set, without creating
duplicates.  This is the de-duplication mechanism of lines 30–34. -/
theorem crawlUrl_visInv (w : World) :
    ∀ (fuel : Nat) (url : String) (depth maxDepth : Nat) (visited : List String),
      VisInv visited (crawlUrl w fuel url depth maxDepth visited) := by
  intro fuel
  induction fuel with
  | zero =>
    intro url depth maxDepth visited
    constructor <;> simp [crawlUrl]
  | succ fuel ih =>
    intro url depth maxDepth visited
    rw [crawlUrl]
    split
    · constructor <;> simp
    · next hguard =>
      have hmem : url ∉ visited := by
        simp only [Bool.or_eq_true, not_or] at hguard
        simpa using hguard.2
      simp only []
      split
      · exact ⟨by simp, fun hnd => by simp [hmem, hnd]⟩
      · split
        · exact ⟨by simp, fun hnd => by simp [hmem, hnd]⟩
        · split
          · have hloop := @followLinks_visInv w
              (fun a v => crawlUrl w fuel a (depth + 1) maxDepth v)
              (fun a v => ih a (depth + 1) maxDepth v)
            refine ⟨?_, ?_⟩
            · dsimp only
              rw [(hloop _ _ _ _).1]
              simp
            · intro hnd
              exact (hloop _ _ _ _).2 (by simp [hmem, hnd])
          · exact ⟨by simp, fun hnd => by simp [hmem, hnd]⟩

/-- Within one seed's crawl (one `crawlUrl` call on a fresh `new Set()`),
no URL is processed twice. -/
theorem crawlUrl_recs_nodup (w : World) (fuel : Nat) (url : String)
    (depth maxDepth : Nat) :
    ((crawlUrl w fuel url depth maxDepth []).recs.map (·.url)).Nodup := by
  obtain ⟨hv, hn⟩ := crawlUrl_visInv w fuel url depth maxDepth []
  have : (crawlUrl w fuel url depth maxDepth []).visited.Nodup := hn (by simp)
  rw [hv] at this
  simpa using this

/-- A record at exactly the entry depth can only be the entry URL's own
record. -/
theorem crawlUrl_rec_at_entry (w : World) (fuel : Nat) (url : String)
    (depth maxDepth : Nat) (visited : List String) :
    ∀ r ∈ (crawlUrl w fuel url depth maxDepth visited).recs,
      (r.depth = depth → r.url = url) ∧ depth ≤ r.depth := by
  intro r hr
  refine ⟨?_, crawlUrl_depth_ge w fuel url depth maxDepth visited r hr⟩
  intro hd
  rcases crawlUrl_shape w fuel url depth maxDepth visited with hsh | ⟨k, t, rest, hsh, hrest⟩
  · rw [hsh] at hr
    simp at hr
  · rw [hsh] at hr
    rcases List.mem_cons.mp hr with h | h
    · rw [h]
    · have := hrest r h
      omega

/-- A single `crawlUrl` call contributes at most one record at its entry
depth. -/
theorem crawlUrl_entry_count (w : World) (fuel : Nat) (url : String)
    (depth maxDepth : Nat) (visited : List String) :
    ((crawlUrl w fuel url depth maxDepth visited).recs.filter
      (fun r => r.depth == depth)).length ≤ 1 := by
  rcases crawlUrl_shape w fuel url depth maxDepth visited with hsh | ⟨k, t, rest, hsh, hrest⟩
  · rw [hsh]
    simp
  · rw [hsh]
    have hnone : rest.filter (fun r => r.depth == depth) = [] := by
      rw [List.filter_eq_nil_iff]
      intro r hr
      have := hrest r hr
      simp only [beq_iff_eq]
      omega
    simp [List.filter_cons, hnone]

/-- Direct children produced by the link loop all come from resolving one
of the loop's links against the base URL and passing the
`startsWith('http')` test. -/
theorem followLinks_child_src {w : World} {next : String → List String → CrawlRes} {d : Nat}
    (hroot : ∀ a v, ∀ r ∈ (next a v).recs, (r.depth = d + 1 → r.url = a) ∧ d + 1 ≤ r.depth) :
    ∀ (ls : List String) (base : String) (visited : List String) (text : String),
      ∀ r ∈ (followLinks w next ls base visited text).recs, r.depth = d + 1 →
        ∃ l ∈ ls, w.resolve l base = some r.url ∧ jsStartsWith r.url "http" = true := by
  intro ls
  induction ls with
  | nil =>
    intro base visited text r hr
    simp [followLinks] at hr
  | cons l ls ih =>
    intro base visited text r hr hd
    rw [followLinks] at hr
    cases hres : w.resolve l base with
    | none =>
      rw [hres] at hr
      obtain ⟨l', hl', hres', hs⟩ := ih base visited text r hr hd
      exact ⟨l', List.mem_cons_of_mem _ hl', hres', hs⟩
    | some abs =>
      rw [hres] at hr
      dsimp only at hr
      by_cases hk : (jsStartsWith abs "http" && !visited.contains abs) = true
      · rw [if_pos hk] at hr
        simp only [List.mem_append] at hr
        rcases hr with hr | hr
        · have hurl := (hroot abs visited r hr).1 hd
          rw [hurl]
          exact ⟨l, List.mem_cons_self l ls, hres,
            ((Bool.and_eq_true _ _).mp hk).1⟩
        · obtain ⟨l', hl', hres', hs⟩ := ih base _ _ r hr hd
          exact ⟨l', List.mem_cons_of_mem _ hl', hres', hs⟩
      · rw [if_neg hk] at hr
        obtain ⟨l', hl', hres', hs⟩ := ih base visited text r hr hd
        exact ⟨l', List.mem_cons_of_mem _ hl', hres', hs⟩

/-- The link loop produces at most one direct child per element of its
link list. -/
theorem followLinks_child_count {w : World} {next : String → List String → CrawlRes} {d : Nat}
    (hcnt : ∀ a v, ((next a v).recs.filter (fun r => r.depth == d + 1)).length ≤ 1) :
    ∀ (ls : List String) (base : String) (visited : List String) (text : String),
      ((followLinks w next ls base visited text).recs.filter
        (fun r => r.depth == d + 1)).length ≤ ls.length := by
  intro ls
  induction ls with
  | nil =>
    intro base visited text
    simp [followLinks]
  | cons l ls ih =>
    intro base visited text
    rw [followLinks]
    cases hres : w.resolve l base with
    | none =>
      exact Nat.le_trans (ih base visited text) (Nat.le_succ _)
    | some abs =>
      dsimp only
      by_cases hk : (jsStartsWith abs "http" && !visited.contains abs) = true
      · rw [if_pos hk]
        dsimp only
        rw [List.filter_append, List.length_append]
        have h1 := hcnt abs visited
        have h2 := ih base (next abs visited).visited
          (text ++ "\n\n" ++ (next abs visited).text)
        simp only [List.length_cons]
        omega
      · rw [if_neg hk]
        exact Nat.le_trans (ih base visited text) (Nat.le_succ _)

/-- One-step unfolding of `crawlUrl` on an HTML page below `maxDepth`:
the guard passes, the PDF test fails, the fetch succeeds, so the crawler
records the page and runs the link loop on the first five hrefs. -/
theorem crawlUrl_unfold_html (w : World) (fuel : Nat) (url : String)
    (depth maxDepth : Nat) (visited : List String) (text : String) (links : List String)
    (hd : depth ≤ maxDepth) (hv : visited.contains url = false)
    (hp : pdfSuffixTest url = false) (hok : w.fetchHtml url = .ok (text, links))
    (hlt : depth < maxDepth) :
    crawlUrl w (fuel + 1) url depth maxDepth visited =
      ⟨(followLinks w (fun a v => crawlUrl w fuel a (depth + 1) maxDepth v)
          (links.take 5) url (url :: visited) text).text,
        (followLinks w (fun a v => crawlUrl w fuel a (depth + 1) maxDepth v)
          (links.take 5) url (url :: visited) text).visited,
        ⟨url, depth, .html, text⟩ ::
          (followLinks w (fun a v => crawlUrl w fuel a (depth + 1) maxDepth v)
            (links.take 5) url (url :: visited) text).recs⟩ := by
  rw [crawlUrl]
  rw [if_neg (by simp; exact ⟨hd, by simpa using hv⟩)]
  simp only [hp, Bool.false_eq_true, if_false, hok]
  rw [if_pos (by simpa using hlt)]

/-- With `maxDepth = 1` (the `follow_links ? max_depth : 1` value when
`follow_links` is false), a seed crawl processes exactly the seed. -/
theorem crawlUrl_seed_single (w : World) (fuel : Nat) (u : String) :
    ∃ k t, (crawlUrl w (fuel + 1) u 1 1 []).recs = [⟨u, 1, k, t⟩] := by
  rw [crawlUrl]
  rw [if_neg (by simp)]
  simp only []
  split
  · exact ⟨_, _, rfl⟩
  · split
    · exact ⟨.error, _, rfl⟩
    · split
      · next h =>
        simp at h
      · exact ⟨.html, _, rfl⟩

/-- A URL passing the PDF suffix test is a leaf: the crawl fetches it via
the PDF extractor, records a single `pdf` result, and touches no other
URL. -/
theorem crawlUrl_pdf_leaf (w : World) (fuel : Nat) (u : String) (depth maxDepth : Nat)
    (visited : List String) (t : String) (hp : pdfSuffixTest u = true)
    (hd : depth ≤ maxDepth) (hv : visited.contains u = false)
    (hok : w.fetchPdf u = .ok t) :
    crawlUrl w (fuel + 1) u depth maxDepth visited =
      ⟨t, u :: visited, [⟨u, depth, .pdf, t⟩]⟩ := by
  rw [crawlUrl]
  rw [if_neg (by simp; exact ⟨hd, by simpa using hv⟩)]
  simp only [hp, if_true, extractTextFromPDF, hok]

/-! ## The same-hostname sublink filter of `crawl-and-summarize-simple.js`

Lines 569–580 of that file (inside its `crawlUrl`):

    const baseDomain = new URL(url).hostname;
    const sublinks = hrefs.filter(href => {
      try {
        const parsed = new URL(href);
        return parsed.hostname === baseDomain && !visitedUrls.has(href);
      } catch {
        return false;
      }
    });
-/

/-- Embeds the sublink filter above; the `catch` branch is the `none`
case of `hostOf`. -/
def sublinksFilter (hrefs : List String) (baseDomain : String)
    (visited : List String) : List String :=
  hrefs.filter fun href =>
    match hostOf href with
    | some h => h == baseDomain && !visited.contains href
    | none => false

/-! ## The reduced crawler of `unnamed/part_003`, lines 35–98 and 170–186

Same `World` as the main crawler.  Differences translated from the
source: the page text is truncated at 5000 characters, the link loop
takes only the first two links, link text is appended only when
non-empty, and recursion additionally requires `depth === 1`.  The
handler truncates the seed list to its first two URLs
(`urls.slice(0, 2)`) and calls
`crawlUrl(url, 1, follow_links ? Math.min(max_depth, 1) : 1, new Set())`,
so the effective `maxDepth` never exceeds 1 and the recursion branch is
never taken. -/

/-- Embeds the link loop of `unnamed/part_003` lines 76–90. -/
def followLinks3 (w : World) (next : String → List String → CrawlRes) :
    List String → String → List String → String → CrawlRes
  | [], _, visited, text => ⟨text, visited, []⟩
  | l :: ls, base, visited, text =>
    match w.resolve l base with
    | none => followLinks3 w next ls base visited text
    | some abs =>
      if jsStartsWith abs "http" && !visited.contains abs then
        let c := next abs visited
        let text1 := if c.text == "" then text else text ++ "\n\n" ++ c.text
        let r := followLinks3 w next ls base c.visited text1
        ⟨r.text, r.visited, c.recs ++ r.recs⟩
      else
        followLinks3 w next ls base visited text

/-- Embeds `crawlUrl` of `unnamed/part_003` lines 35–98. -/
def crawlUrl3 (w : World) : Nat → String → Nat → Nat → List String → CrawlRes
  | 0, _, _, _, visited => ⟨"", visited, []⟩
  | fuel + 1, url, depth, maxDepth, visited =>
    if depth > maxDepth || visited.contains url then ⟨"", visited, []⟩
    else
      let visited1 := url :: visited
      if pdfSuffixTest url then
        let p := extractTextFromPDF w url
        ⟨p.1, visited1, [⟨url, depth, p.2, p.1⟩]⟩
      else
        match w.fetchHtml url with
        | .error m =>
          let t := "Error crawling " ++ url ++ ": " ++ m
          ⟨t, visited1, [⟨url, depth, .error, t⟩]⟩
        | .ok (text0, links) =>
          let text := if text0.length > 5000
            then jsTake text0 5000 ++ "... [Content truncated for processing]"
            else text0
          if depth < maxDepth && depth == 1 then
            let r := followLinks3 w (fun a v => crawlUrl3 w fuel a (depth + 1) maxDepth v)
              (links.take 2) url visited1 text
            ⟨r.text, r.visited, ⟨url, depth, .html, text⟩ :: r.recs⟩
          else
            ⟨text, visited1, [⟨url, depth, .html, text⟩]⟩

/-- Embeds the crawl phase of the `unnamed/part_003` handler
(lines 170–186): `const limitedUrls = urls.slice(0, 2)` and one
`crawlUrl` call per remaining seed with a fresh `new Set()`.  The
6-second `Promise.race` only replaces a slow crawl's text; it does not
change which URLs are attempted, and is not modelled. -/
def part3CrawlPhase (w : World) (urls : List String) (follow_links : Bool)
    (max_depth : Nat) : List CrawlRes :=
  (urls.take 2).map fun u =>
    crawlUrl3 w 2 u 1 (if follow_links then min max_depth 1 else 1) []

/-- With `maxDepth = 1`, a `part_003` seed crawl processes exactly the
seed. -/
theorem crawlUrl3_seed_single (w : World) (fuel : Nat) (u : String) :
    ∃ k t, (crawlUrl3 w (fuel + 1) u 1 1 []).recs = [⟨u, 1, k, t⟩] := by
  rw [crawlUrl3]
  rw [if_neg (by simp)]
  simp only []
  split
  · exact ⟨_, _, rfl⟩
  · split
    · exact ⟨.error, _, rfl⟩
    · split
      · next h =>
        simp at h
      · exact ⟨.html, _, rfl⟩

/-! ## Concrete worlds used by the claim theorems

In every world below, the hrefs served by `fetchHtml` are absolute
normalized URLs, on which `new URL(link, base).href` is the identity, so
`resolve` is `some` of the link itself. -/

/-- Two seeds that both link to the same third page. -/
def wC1 : World where
  fetchHtml u :=
    if u == "http://a.example/1" then .ok ("tA", ["http://a.example/c"])
    else if u == "http://a.example/2" then .ok ("tB", ["http://a.example/c"])
    else if u == "http://a.example/c" then .ok ("tC", [])
    else .error "network"
  fetchPdf _ := .error "not pdf"
  resolve l _ := some l

/-- A page on host `a.example` whose only link is cross-origin, on host
`b.example`. -/
def wC2 : World where
  fetchHtml u :=
    if u == "http://a.example/p" then .ok ("tP", ["http://b.example/q"])
    else if u == "http://b.example/q" then .ok ("tQ", [])
    else .error "network"
  fetchPdf _ := .error "not pdf"
  resolve l _ := some l

/-- A page with one same-origin link, for the C2 witness. -/
def wC2A : World where
  fetchHtml u :=
    if u == "http://a.example/p" then .ok ("tP", ["http://a.example/q"])
    else if u == "http://a.example/q" then .ok ("tQ", [])
    else .error "network"
  fetchPdf _ := .error "not pdf"
  resolve l _ := some l

/-- Every fetch fails with a timeout message. -/
def wC4 : World where
  fetchHtml _ := .error "timeout of 10000ms exceeded"
  fetchPdf _ := .error "timeout of 30000ms exceeded"
  resolve l _ := some l

/-- Every fetch succeeds with empty link lists. -/
def wC5 : World where
  fetchHtml _ := .ok ("t", [])
  fetchPdf _ := .error "not pdf"
  resolve l _ := some l

/-- One PDF document. -/
def wC6 : World where
  fetchHtml _ := .error "x"
  fetchPdf u := if u == "http://a.example/report.pdf" then .ok "pdf text" else .error "x"
  resolve l _ := some l

/-- One HTML seed with ten same-origin links. -/
def wC7 : World where
  fetchHtml u :=
    if u == "http://a.example/s" then
      .ok ("tS", ["http://a.example/1", "http://a.example/2", "http://a.example/3",
        "http://a.example/4", "http://a.example/5", "http://a.example/6",
        "http://a.example/7", "http://a.example/8", "http://a.example/9",
        "http://a.example/10"])
    else .ok ("tL", [])
  fetchPdf _ := .error "not pdf"
  resolve l _ := some l

/-- Every fetch fails; enough for a depth-bound witness. -/
def wC9 : World where
  fetchHtml _ := .error "x"
  fetchPdf _ := .error "x"
  resolve l _ := some l

/-! ## Claim theorems -/

/-- Claim C1, counterexample.  The handler passes a fresh `new Set()` to
each seed's `crawlUrl` (line 135), so the visited set is not shared
across seeds: with two seeds that both link to
`http://a.example/c`, that third URL is fetched and recorded twice in
one request, not at most once as the claim states. -/
theorem c1_counterexample :
    ((allRecs (crawlPhaseMain wC1 ["http://a.example/1", "http://a.example/2"] true 2)).filter
      (fun r => r.url == "http://a.example/c")).length = 2 := by decide

/-- Claim C1, amended.  De-duplication does hold within each single
seed's recursion tree: one `crawlUrl` call on a fresh set never records
the same URL twice, for any seed of any request. -/
theorem c1_amended (w : World) (urls : List String) (fl : Bool) (maxDepth : Nat) :
    ∀ res ∈ crawlPhaseMain w urls fl maxDepth, (res.recs.map (·.url)).Nodup := by
  intro res hres
  rw [crawlPhaseMain] at hres
  obtain ⟨u, hu, rfl⟩ := List.mem_map.mp hres
  exact crawlUrl_recs_nodup w _ u 1 _

/-- Claim C1, witness for the amended theorem, at the counterexample's
own two-seed request. -/
theorem c1_amended_witness :
    ((crawlUrl wC1 3 "http://a.example/1" 1 2 []).recs.map (·.url)).Nodup :=
  c1_amended wC1 ["http://a.example/1", "http://a.example/2"] true 2
    (crawlUrl wC1 3 "http://a.example/1" 1 2 []) (by decide)

/-- Claim C2, counterexample.  `crawlUrl` of `crawl-and-summarize.js`
keeps any resolved link that starts with `http` (line 70) — there is no
same-hostname check — so a cross-origin link (host `b.example` from a
page on host `a.example`) is followed and fetched. -/
theorem c2_counterexample :
    hostOf "http://a.example/p" = some "a.example" ∧
    hostOf "http://b.example/q" = some "b.example" ∧
    ((allRecs (crawlPhaseMain wC2 ["http://a.example/p"] true 2)).filter
      (fun r => r.url == "http://b.example/q")).length = 1 := by decide

/-- Claim C2, amended.  In `crawl-and-summarize.js` the links recursed
into from a page are drawn from the first five hrefs whose resolution
against the page URL yields an absolute URL starting with `http` —
cross-origin links included; the same-hostname restriction exists only
in `crawl-and-summarize-simple.js`, whose sublink filter keeps exactly
links on the base hostname that are not yet visited. -/
theorem c2_amended :
    (∀ (w : World) (fuel : Nat) (url : String) (depth maxDepth : Nat)
      (visited : List String) (text : String) (links : List String),
      depth ≤ maxDepth → visited.contains url = false → pdfSuffixTest url = false →
      w.fetchHtml url = .ok (text, links) →
      ∀ r ∈ (crawlUrl w (fuel + 1) url depth maxDepth visited).recs, r.depth = depth + 1 →
        ∃ l ∈ links.take 5, w.resolve l url = some r.url ∧
          jsStartsWith r.url "http" = true) ∧
    (∀ (hrefs : List String) (baseDomain : String) (visited : List String),
      ∀ h ∈ sublinksFilter hrefs baseDomain visited,
        hostOf h = some baseDomain ∧ visited.contains h = false) := by
  constructor
  · intro w fuel url depth maxDepth visited text links hd hv hp hok r hr hdep
    by_cases hlt : depth < maxDepth
    · rw [crawlUrl_unfold_html w fuel url depth maxDepth visited text links hd hv hp hok hlt] at hr
      simp only [List.mem_cons] at hr
      rcases hr with hr | hr
      · rw [hr] at hdep
        simp at hdep
      · exact @followLinks_child_src w
          (fun a v => crawlUrl w fuel a (depth + 1) maxDepth v) depth
          (fun a v => crawlUrl_rec_at_entry w fuel a (depth + 1) maxDepth v) _ _ _ _ r hr hdep
    · have hle := crawlUrl_depth_le w (fuel + 1) url depth maxDepth visited r hr
      omega
  · intro hrefs baseDomain visited h hh
    rw [sublinksFilter, List.mem_filter] at hh
    obtain ⟨hmem, hcond⟩ := hh
    cases hhost : hostOf h with
    | none =>
      rw [hhost] at hcond
      simp at hcond
    | some hn =>
      rw [hhost] at hcond
      simp only [Bool.and_eq_true, beq_iff_eq, Bool.not_eq_true'] at hcond
      refine ⟨?_, hcond.2⟩
      rw [hcond.1]

/-- Claim C2, witness for the amended theorem's hypotheses. -/
theorem c2_amended_witness :
    ((1 : Nat) ≤ 2 ∧ ([] : List String).contains "http://a.example/p" = false ∧
      pdfSuffixTest "http://a.example/p" = false ∧
      wC2A.fetchHtml "http://a.example/p" = .ok ("tP", ["http://a.example/q"])) ∧
    (∀ r ∈ (crawlUrl wC2A 2 "http://a.example/p" 1 2 []).recs, r.depth = 1 + 1 →
      ∃ l ∈ ["http://a.example/q"].take 5,
        wC2A.resolve l "http://a.example/p" = some r.url ∧
        jsStartsWith r.url "http" = true) :=
  ⟨⟨by decide, by decide, by decide, by rfl⟩,
    c2_amended.1 wC2A 1 "http://a.example/p" 1 2 [] "tP" ["http://a.example/q"]
      (by decide) (by decide) (by decide) (by rfl)⟩

/-- Claim C4: a failing fetch for a URL is recorded as an error result
whose text carries the error message (`Error crawling <url>: <msg>` from
the `catch` at lines 81–84, `Error processing PDF: <msg>` from the
`catch` at lines 22–25); the crawl phase never raises and returns one
result per seed whatever the network does, so no per-URL failure aborts
a sibling. -/
theorem c4_error_isolation :
    (∀ (w : World) (urls : List String) (fl : Bool) (maxDepth : Nat),
      (crawlPhaseMain w urls fl maxDepth).length = urls.length) ∧
    (∀ (w : World) (fuel : Nat) (u : String) (depth maxDepth : Nat)
      (visited : List String) (m : String),
      depth ≤ maxDepth → visited.contains u = false →
      (pdfSuffixTest u = false → w.fetchHtml u = .error m →
        crawlUrl w (fuel + 1) u depth maxDepth visited =
          ⟨"Error crawling " ++ u ++ ": " ++ m, u :: visited,
            [⟨u, depth, .error, "Error crawling " ++ u ++ ": " ++ m⟩]⟩) ∧
      (pdfSuffixTest u = true → w.fetchPdf u = .error m →
        crawlUrl w (fuel + 1) u depth maxDepth visited =
          ⟨"Error processing PDF: " ++ m, u :: visited,
            [⟨u, depth, .error, "Error processing PDF: " ++ m⟩]⟩)) := by
  constructor
  · intro w urls fl maxDepth
    rw [crawlPhaseMain]
    exact List.length_map _ _
  · intro w fuel u depth maxDepth visited m hd hv
    constructor
    · intro hp herr
      rw [crawlUrl]
      rw [if_neg (by simp; exact ⟨hd, by simpa using hv⟩)]
      simp only [hp, Bool.false_eq_true, if_false, herr]
    · intro hp herr
      rw [crawlUrl]
      rw [if_neg (by simp; exact ⟨hd, by simpa using hv⟩)]
      simp only [hp, if_true, extractTextFromPDF, herr]

/-- Claim C4, witness: a timed-out seed fetch yields exactly one error
record carrying the message, and the phase still returns. -/
theorem c4_witness :
    ((1 : Nat) ≤ 1 ∧ ([] : List String).contains "http://a.example/p" = false ∧
      pdfSuffixTest "http://a.example/p" = false ∧
      wC4.fetchHtml "http://a.example/p" = .error "timeout of 10000ms exceeded") ∧
    crawlUrl wC4 2 "http://a.example/p" 1 1 [] =
      ⟨"Error crawling " ++ "http://a.example/p" ++ ": " ++ "timeout of 10000ms exceeded",
        "http://a.example/p" :: [],
        [⟨"http://a.example/p", 1, .error,
          "Error crawling " ++ "http://a.example/p" ++ ": " ++ "timeout of 10000ms exceeded"⟩]⟩ :=
  ⟨⟨by decide, by decide, by decide, by rfl⟩,
    (c4_error_isolation.2 wC4 1 "http://a.example/p" 1 1 [] "timeout of 10000ms exceeded"
      (by decide) (by decide)).1 (by decide) (by rfl)⟩

/-- Claim C5, counterexample.  The `unnamed/part_003` handler truncates
the seed list to its first two URLs (`urls.slice(0, 2)`, line 170)
before crawling, so with three seeds and `follow_links = false` only two
URLs are visited, not three as the claim requires. -/
theorem c5_counterexample :
    ((part3CrawlPhase wC5 ["http://a.example/1", "http://a.example/2", "http://a.example/3"]
      false 1).map (fun res => res.recs.length)).sum = 2 ∧ (2 : Nat) ≠ 3 := by
  constructor
  · decide
  · decide

/-- Claim C5, amended.  With `followLinks = false` no discovered link is
followed and every attempted seed is processed at depth 1 exactly once.
In `crawl-and-summarize.js` all seeds are attempted, so `urlsVisited`
equals the seed count; in `unnamed/part_003` only the first two seeds
are attempted, so there it equals `min 2 (number of seeds)`. -/
theorem c5_amended (w : World) (urls : List String) (maxDepth : Nat) :
    (((crawlPhaseMain w urls false maxDepth).map (fun res => res.recs.length)).sum
        = urls.length ∧
      ∀ res ∈ crawlPhaseMain w urls false maxDepth, ∀ r ∈ res.recs, r.depth = 1) ∧
    ((part3CrawlPhase w urls false maxDepth).map (fun res => res.recs.length)).sum
        = min 2 urls.length := by
  refine ⟨⟨?_, ?_⟩, ?_⟩
  · rw [crawlPhaseMain]
    simp only [Bool.false_eq_true, if_false]
    induction urls with
    | nil => simp
    | cons u us ih =>
      obtain ⟨k, t, h⟩ := crawlUrl_seed_single w 1 u
      simp only [List.map_cons, List.sum_cons, h, ih, List.length_cons, List.length_singleton,
        List.length_nil]
      omega
  · intro res hres r hr
    rw [crawlPhaseMain] at hres
    obtain ⟨u, hu, rfl⟩ := List.mem_map.mp hres
    simp only [Bool.false_eq_true, if_false] at hr
    obtain ⟨k, t, h⟩ := crawlUrl_seed_single w 1 u
    rw [h] at hr
    simp only [List.mem_singleton] at hr
    rw [hr]
  · rw [part3CrawlPhase]
    simp only [Bool.false_eq_true, if_false]
    have hlen : ∀ u : String, (crawlUrl3 w 2 u 1 1 []).recs.length = 1 := by
      intro u
      obtain ⟨k, t, h⟩ := crawlUrl3_seed_single w 1 u
      rw [h]
      rfl
    rw [← List.length_take 2 urls]
    induction urls.take 2 with
    | nil => simp
    | cons u us ih =>
      simp only [List.map_cons, List.sum_cons, hlen, ih, List.length_cons]
      omega

/-- Claim C6: a URL passing the PDF test is a leaf.  A single PDF seed
with `followLinks = true` and any `maxDepth ≥ 1` is fetched through the
PDF extractor only, is never scanned for links, and the whole request
visits exactly that one URL with a `pdf` result — for every world, in
particular whatever `fetchHtml` would return. -/
theorem c6_pdf_leaf (w : World) (u : String) (maxDepth : Nat) (t : String)
    (hp : pdfSuffixTest u = true) (hmd : 1 ≤ maxDepth) (hok : w.fetchPdf u = .ok t) :
    crawlPhaseMain w [u] true maxDepth = [⟨t, [u], [⟨u, 1, .pdf, t⟩]⟩] := by
  rw [crawlPhaseMain]
  simp only [List.map_cons, List.map_nil, if_true]
  rw [crawlUrl_pdf_leaf w maxDepth u 1 maxDepth [] t hp hmd (by simp) hok]

/-- Claim C6, witness: the claim's scenario — one PDF seed,
`followLinks = true`, `maxDepth = 2` — visits exactly one URL with kind
`pdf`. -/
theorem c6_witness :
    (pdfSuffixTest "http://a.example/report.pdf" = true ∧ (1 : Nat) ≤ 2 ∧
      wC6.fetchPdf "http://a.example/report.pdf" = .ok "pdf text") ∧
    crawlPhaseMain wC6 ["http://a.example/report.pdf"] true 2 =
      [⟨"pdf text", ["http://a.example/report.pdf"],
        [⟨"http://a.example/report.pdf", 1, .pdf, "pdf text"⟩]⟩] :=
  ⟨⟨by decide, by decide, by rfl⟩,
    c6_pdf_leaf wC6 "http://a.example/report.pdf" 2 "pdf text"
      (by decide) (by decide) (by rfl)⟩

/-- Claim C7, counterexample.  The fan-out cap in
`crawl-and-summarize.js` is 5 (`links.slice(0, 5)`, line 67), not 3, and
seeds enter `crawlUrl` at depth 1, so with the claim's scenario
(`max_depth = 1`) no link is followed at all: one HTML seed with ten
same-origin links yields 1 visited URL, and with `max_depth = 2` it
yields 1 + min(5, 10) = 6 — neither equals the claimed 4. -/
theorem c7_counterexample :
    ((crawlPhaseMain wC7 ["http://a.example/s"] true 1).map
      (fun res => res.recs.length)).sum = 1 ∧
    ((crawlPhaseMain wC7 ["http://a.example/s"] true 2).map
      (fun res => res.recs.length)).sum = 6 ∧
    (1 : Nat) ≠ 4 ∧ (6 : Nat) ≠ 4 := by
  exact ⟨by decide, by decide, by decide, by decide⟩

/-- Claim C7, amended.  When `followLinks` is true and a page sits
strictly below `maxDepth`, the crawler recurses into at most 5 of the
page's discovered links (the fixed `slice(0, 5)` cap) at `depth + 1`;
concretely, one HTML seed with ten same-origin links and `max_depth = 2`
yields 1 + min(5, 10) = 6 visited URLs. -/
theorem c7_amended :
    (∀ (w : World) (fuel : Nat) (url : String) (depth maxDepth : Nat)
      (visited : List String) (text : String) (links : List String),
      depth ≤ maxDepth → visited.contains url = false → pdfSuffixTest url = false →
      w.fetchHtml url = .ok (text, links) →
      ((crawlUrl w (fuel + 1) url depth maxDepth visited).recs.filter
        (fun r => r.depth == depth + 1)).length ≤ 5) ∧
    ((crawlPhaseMain wC7 ["http://a.example/s"] true 2).map
      (fun res => res.recs.length)).sum = 6 := by
  constructor
  · intro w fuel url depth maxDepth visited text links hd hv hp hok
    by_cases hlt : depth < maxDepth
    · rw [crawlUrl_unfold_html w fuel url depth maxDepth visited text links hd hv hp hok hlt]
      simp only [List.filter_cons]
      have hroot : ((⟨url, depth, .html, text⟩ : CrawlRec).depth == depth + 1) = false := by
        simp
      rw [hroot]
      have hcnt := @followLinks_child_count w
        (fun a v => crawlUrl w fuel a (depth + 1) maxDepth v) depth
        (fun a v => crawlUrl_entry_count w fuel a (depth + 1) maxDepth v)
        (links.take 5) url (url :: visited) text
      calc ((followLinks w (fun a v => crawlUrl w fuel a (depth + 1) maxDepth v)
            (links.take 5) url (url :: visited) text).recs.filter
            (fun r => r.depth == depth + 1)).length
          ≤ (links.take 5).length := hcnt
        _ ≤ 5 := List.length_take_le _ _
    · have hle := crawlUrl_depth_le w (fuel + 1) url depth maxDepth visited
      have hnil : (crawlUrl w (fuel + 1) url depth maxDepth visited).recs.filter
          (fun r => r.depth == depth + 1) = [] := by
        rw [List.filter_eq_nil_iff]
        intro r hr
        have := hle r hr
        simp only [beq_iff_eq]
        omega
      rw [hnil]
      simp
  · decide

/-- Claim C7, witness for the amended theorem's hypotheses. -/
theorem c7_amended_witness :
    ((1 : Nat) ≤ 2 ∧ ([] : List String).contains "http://a.example/s" = false ∧
      pdfSuffixTest "http://a.example/s" = false) ∧
    ((crawlUrl wC7 2 "http://a.example/s" 1 2 []).recs.filter
      (fun r => r.depth == 1 + 1)).length ≤ 5 :=
  ⟨⟨by decide, by decide, by decide⟩,
    c7_amended.1 wC7 1 "http://a.example/s" 1 2 [] "tS"
      ["http://a.example/1", "http://a.example/2", "http://a.example/3",
        "http://a.example/4", "http://a.example/5", "http://a.example/6",
        "http://a.example/7", "http://a.example/8", "http://a.example/9",
        "http://a.example/10"]
      (by decide) (by decide) (by decide) (by rfl)⟩

/-- Claim C9: every record of a crawl has depth at most the request's
`maxDepth` (for requests with `maxDepth ≥ 1`, as the spec's data model
requires); with `follow_links` false the effective bound is 1 ≤
`maxDepth`. -/
theorem c9_depth_le (w : World) (urls : List String) (fl : Bool) (maxDepth : Nat)
    (hmd : 1 ≤ maxDepth) :
    ∀ res ∈ crawlPhaseMain w urls fl maxDepth, ∀ r ∈ res.recs, r.depth ≤ maxDepth := by
  intro res hres r hr
  rw [crawlPhaseMain] at hres
  obtain ⟨u, hu, rfl⟩ := List.mem_map.mp hres
  have h := crawlUrl_depth_le w _ u 1 (if fl then maxDepth else 1) [] r hr
  cases fl with
  | true => simpa using h
  | false =>
    simp only [Bool.false_eq_true, if_false] at h
    omega

/-- Claim C9, witness. -/
theorem c9_witness :
    (1 : Nat) ≤ 2 ∧
    ∀ res ∈ crawlPhaseMain wC9 ["http://a.example/p"] true 2, ∀ r ∈ res.recs, r.depth ≤ 2 :=
  ⟨by decide, c9_depth_le wC9 ["http://a.example/p"] true 2 (by decide)⟩

/-! ## Classification (C8) -/

/-- The branch taken for each crawled URL in `crawl-and-summarize.js` is
decided by the whole-URL suffix test at line 40: a `pdf` record can only
arise from a URL passing it, an `html` record only from one failing it
(such URLs default to the HTML path). -/
theorem crawlUrl_kind_branch (w : World) :
    ∀ (fuel : Nat) (url : String) (depth maxDepth : Nat) (visited : List String),
      ∀ r ∈ (crawlUrl w fuel url depth maxDepth visited).recs,
        (r.kind = SKind.pdf → pdfSuffixTest r.url = true) ∧
        (r.kind = SKind.html → pdfSuffixTest r.url = false) := by
  intro fuel
  induction fuel with
  | zero =>
    intro url depth maxDepth visited r hr
    simp [crawlUrl] at hr
  | succ fuel ih =>
    intro url depth maxDepth visited r hr
    rw [crawlUrl] at hr
    split at hr
    · simp at hr
    · simp only [] at hr
      split at hr
      · next hpdf =>
        simp at hr
        subst hr
        refine ⟨fun _ => hpdf, fun hk => ?_⟩
        exfalso
        revert hk
        cases hfetch : w.fetchPdf url <;> simp [extractTextFromPDF, hfetch]
      · next hpdf =>
        have hpdf' : pdfSuffixTest url = false := by
          revert hpdf
          cases pdfSuffixTest url <;> simp
        split at hr
        · simp at hr
          subst hr
          exact ⟨fun hk => by simp at hk, fun _ => hpdf'⟩
        · split at hr
          · simp only [List.mem_cons] at hr
            rcases hr with hr | hr
            · subst hr
              exact ⟨fun hk => by simp at hk, fun _ => hpdf'⟩
            · exact followLinks_recs_pred
                (fun a v => ih a (depth + 1) maxDepth v) _ _ _ _ r hr
          · simp at hr
            subst hr
            exact ⟨fun hk => by simp at hk, fun _ => hpdf'⟩

/-- Claim C8, counterexample.  `isPdfUrl` (shared by
`crawl-and-summarize-simple.js` and `unnamed/part_002`) classifies
`https://example.com/pdf-guide.html` as PDF because its pathname merely
*contains* "pdf", although the pathname does not end in `.pdf`; and on a
string `new URL` cannot parse it throws instead of defaulting to html —
contradicting both "decided by the case-insensitive `.pdf` suffix of the
URL path" and "never errors". -/
theorem c8_counterexample :
    isPdfUrl "https://example.com/pdf-guide.html" = some true ∧
    pathnameOf "https://example.com/pdf-guide.html" = some "/pdf-guide.html" ∧
    jsEndsWith (jsToLower "/pdf-guide.html") ".pdf" = false ∧
    isPdfUrl "::not-a-url::" = none := by decide

/-- Claim C8, amended.  In `crawl-and-summarize.js` classification is
the case-insensitive `.pdf` suffix of the *whole URL string* and decides
the crawl branch exactly (non-matches default to html); in
`crawl-and-summarize-simple.js`/`unnamed/part_002`, `isPdfUrl` returns
pdf whenever the lowercased pathname ends in `.pdf` (and also when it
merely contains "pdf"), and throws on unparsable URLs. -/
theorem c8_amended :
    (∀ (w : World) (fuel : Nat) (url : String) (depth maxDepth : Nat)
      (visited : List String),
      ∀ r ∈ (crawlUrl w fuel url depth maxDepth visited).recs,
        (r.kind = SKind.pdf → pdfSuffixTest r.url = true) ∧
        (r.kind = SKind.html → pdfSuffixTest r.url = false)) ∧
    (∀ (url p : String), pathnameOf url = some p →
      jsEndsWith (jsToLower p) ".pdf" = true → isPdfUrl url = some true) := by
  constructor
  · exact fun w => crawlUrl_kind_branch w
  · intro url p hp hsuf
    rw [isPdfUrl, hp]
    simp [hsuf]

/-- Claim C8, witness for the amended theorem's hypotheses. -/
theorem c8_amended_witness :
    (pathnameOf "http://a.example/doc.pdf" = some "/doc.pdf" ∧
      jsEndsWith (jsToLower "/doc.pdf") ".pdf" = true) ∧
    isPdfUrl "http://a.example/doc.pdf" = some true :=
  ⟨⟨by decide, by decide⟩,
    c8_amended.2 "http://a.example/doc.pdf" "/doc.pdf" (by decide) (by decide)⟩

/-! ## The time-budgeted crawler of `unnamed/part_002`

Its network/DOM collaborator also carries durations, so that the
wall-clock (`Date.now()`) can be threaded explicitly:

* `fetchPdfText u` — the text `extractTextFromPdf(u)` (lines 42–68)
  resolves with; that function catches internally (including the
  content-type check), so it is total.
* `pdfDur u` / `gotoDur u` — milliseconds consumed by the PDF download,
  resp. by `page.goto` + evaluation, of `u`.
* `goto u` — outcome of `page.goto(u)` and the `page.evaluate` calls:
  on success the extracted main text and the sublink hrefs, on failure
  the thrown message.
* `cheerioText u` — the cheerio fallback text of the handler's
  single-page path (lines 253–258).
-/

/-- Network/DOM/clock collaborator of the `unnamed/part_002` crawler. -/
structure PWorld where
  fetchPdfText : String → String
  pdfDur : String → Nat
  goto : String → Except String (String × List String)
  gotoDur : String → Nat
  cheerioText : String → String

/-- The early-stop text returned by `crawlUrl` at line 76. -/
def crawlStoppedMarker : String :=
  "[Crawl stopped early due to Netlify timeout limit. Partial results only.]"

/-- Explicit time/visited/fetch state of a `part_002` run: the current
`Date.now()` value, the shared `visitedUrls` set, and a ghost log of
`(url, time)` pairs, one per network fetch issued, in order. -/
structure TState where
  now : Nat
  visited : List String
  fetchLog : List (String × Nat)
deriving DecidableEq, Repr

/-- Embeds `crawlUrl(url, browser, depth, maxDepth, visitedUrls,
startTime, maxElapsedMs)` of `unnamed/part_002` lines 70–124.  The
checks happen in source order: visited/depth guard, then the elapsed
check `Date.now() - startTime > maxElapsedMs` against a `startTime` that
defaults to the current time when the caller passes none.

On the HTML path, after `page.goto` and the two `page.evaluate` calls
succeed, the source executes `sublinks = sublinks.slice(0, 2)`
(line 113) — an assignment to the `const sublinks` declared at line 107 —
which throws a `TypeError` ("Assignment to constant variable") that the
`catch` at line 118 turns into the error text.  The recursive sublink
crawl below that line is therefore unreachable, and this embedding is
not recursive.  `Except.error` models the `TypeError` of `new URL`
inside `isPdfUrl`, which this function does not catch. -/
def crawlUrl2 (w : PWorld) (url : String) (depth maxDepth : Nat)
    (startTime : Option Nat) (maxElapsedMs : Nat) (st : TState) :
    Except String (String × TState) :=
  if st.visited.contains url || depth > maxDepth then .ok ("", st)
  else if st.now - startTime.getD st.now > maxElapsedMs then .ok (crawlStoppedMarker, st)
  else
    match isPdfUrl url with
    | none => .error "Invalid URL"
    | some true =>
      .ok ("PDF Content from " ++ url ++ ":\n" ++ w.fetchPdfText url,
        ⟨st.now + w.pdfDur url, url :: st.visited, st.fetchLog ++ [(url, st.now)]⟩)
    | some false =>
      match w.goto url with
      | .error m =>
        .ok ("Error processing " ++ url ++ ": " ++ m,
          ⟨st.now + w.gotoDur url, url :: st.visited, st.fetchLog ++ [(url, st.now)]⟩)
      | .ok _ =>
        .ok ("Error processing " ++ url ++ ": Assignment to constant variable.",
          ⟨st.now + w.gotoDur url, url :: st.visited, st.fetchLog ++ [(url, st.now)]⟩)

/-- Accumulator of the `unnamed/part_002` handler's URL loop
(lines 214–278): the `allContent` pushes, the shared clock/visited/fetch
state, and `totalUrlsCrawled`. -/
structure P2Out where
  contents : List String
  st : TState
  totalUrlsCrawled : Nat
deriving DecidableEq, Repr

/-- One iteration of the `for (const url of urls)` loop of the
`unnamed/part_002` handler (lines 214–278), translated branch by branch:
PDFs are fetched directly with **no deadline check**; HTML seeds go
through `crawlUrl` when `follow_links` is set — called *without* a
`startTime` argument, so each seed starts a fresh clock — and through a
single-page fetch otherwise; any throw is caught per-URL and pushed as
an error block. -/
def part2Step (w : PWorld) (follow_links : Bool) (max_depth maxElapsedMs : Nat)
    (acc : P2Out) (url : String) : P2Out :=
  match isPdfUrl url with
  | some true =>
    { contents := acc.contents ++
        ["Source: " ++ url ++ " (PDF)\n" ++ jsTake (w.fetchPdfText url) 4000 ++ "\n\n"],
      st := ⟨acc.st.now + w.pdfDur url, acc.st.visited,
        acc.st.fetchLog ++ [(url, acc.st.now)]⟩,
      totalUrlsCrawled := acc.totalUrlsCrawled + 1 }
  | none =>
    { contents := acc.contents ++
        ["Source: " ++ url ++ "\nError processing URL: Invalid URL\n\n"],
      st := acc.st,
      totalUrlsCrawled := acc.totalUrlsCrawled + 1 }
  | some false =>
    if follow_links then
      match crawlUrl2 w url 1 max_depth none maxElapsedMs acc.st with
      | .ok (content, st2) =>
        { contents := acc.contents ++
            ["Source: " ++ url ++ "\n" ++ jsTake content 4000 ++ "\n\n"],
          st := st2,
          totalUrlsCrawled := acc.totalUrlsCrawled + st2.visited.length }
      | .error m =>
        { contents := acc.contents ++
            ["Source: " ++ url ++ "\nError processing URL: " ++ m ++ "\n\n"],
          st := acc.st,
          totalUrlsCrawled := acc.totalUrlsCrawled + 1 }
    else
      match w.goto url with
      | .error m =>
        { contents := acc.contents ++
            ["Source: " ++ url ++ "\nError processing URL: " ++ m ++ "\n\n"],
          st := ⟨acc.st.now + w.gotoDur url, acc.st.visited,
            acc.st.fetchLog ++ [(url, acc.st.now)]⟩,
          totalUrlsCrawled := acc.totalUrlsCrawled + 1 }
      | .ok (content, _) =>
        { contents := acc.contents ++
            ["Source: " ++ url ++ "\n" ++
              jsTake (if content == "" || (jsTrim content).length < 100
                then w.cheerioText url else content) 4000 ++ "\n\n"],
          st := ⟨acc.st.now + w.gotoDur url, acc.st.visited,
            acc.st.fetchLog ++ [(url, acc.st.now)]⟩,
          totalUrlsCrawled := acc.totalUrlsCrawled + 1 }

/-- The crawl phase of the `unnamed/part_002` handler: fold the URL loop
from time `t0` with an empty shared `visitedUrls`, then compute the
`crawlWarning` flag exactly as line 296 does —
`combinedContent.includes('[Crawl stopped early due to Netlify timeout limit.')`
over `allContent.join('\n')`. -/
def part2Crawl (w : PWorld) (urls : List String) (follow_links : Bool)
    (max_depth maxElapsedMs t0 : Nat) : P2Out × Bool :=
  (urls.foldl (part2Step w follow_links max_depth maxElapsedMs) ⟨[], ⟨t0, [], []⟩, 0⟩,
    jsIncludes
      (String.intercalate "\n"
        (urls.foldl (part2Step w follow_links max_depth maxElapsedMs) ⟨[], ⟨t0, [], []⟩, 0⟩).contents)
      "[Crawl stopped early due to Netlify timeout limit.")

/-- Two plain HTML seeds; loading the first takes 9000 ms, past the
8000 ms budget. -/
def wC3 : PWorld where
  fetchPdfText _ := ""
  pdfDur _ := 0
  goto _ := .ok ("page text", [])
  gotoDur u := if u == "http://a.example/one" then 9000 else 500
  cheerioText _ := ""

/-- Claim C3 evaluation at the failing input.  With two HTML seeds and
the first load consuming 9000 ms of the 8000 ms budget measured from
crawl start (`t0 = 0`): the second seed is still fetched, at time 9000,
because the handler passes no `startTime` and `crawlUrl` then measures
elapsed time from its own call; the warning flag stays `false` even
though the deadline elapsed mid-crawl; and every seed's content is the
`Assignment to constant variable` error text — the `const` reassignment
bug that also makes the early-stop marker unreachable.  This contradicts
each part of the claim: a new fetch is issued after the budget, no
`deadlineExceeded` signal is raised, and the per-seed texts carry errors
rather than extracted content. -/
theorem c3_deadline_dead :
    (part2Crawl wC3 ["http://a.example/one", "http://b.example/two"] true 2 8000 0).1.st.fetchLog
      = [("http://a.example/one", 0), ("http://b.example/two", 9000)] ∧
    (part2Crawl wC3 ["http://a.example/one", "http://b.example/two"] true 2 8000 0).2 = false ∧
    8000 < 9000 ∧
    (part2Crawl wC3 ["http://a.example/one", "http://b.example/two"] true 2 8000 0).1.contents
      = ["Source: http://a.example/one\nError processing http://a.example/one: Assignment to constant variable.\n\n",
         "Source: http://b.example/two\nError processing http://b.example/two: Assignment to constant variable.\n\n"] := by
  refine ⟨by decide, by decide, by decide, by decide⟩

/-! ## The saved-settings handler

Second document inside `netlify/functions/crawl-and-summarize.js`
(lines 192–389): the module-level `savedData` object (lines 200–205) and
the handler that reassigns it (lines 358–363) only after the OpenAI call
resolved.  `extractContent` (lines 208–233) catches internally and
always returns a string, so the per-URL loop never throws; every other
failure returns an error response before the `savedData = {...}`
statement is reached. -/

/-- The module-level `savedData` record (lines 200–205). -/
structure SavedData where
  urls : List String
  custom_prompt : String
  region : String
deriving DecidableEq, Repr

/-- Parsed JSON request body; `none` fields model absent JSON fields. -/
structure ReqBody where
  urls : Option (List String)
  custom_prompt : Option String
  region : Option String
deriving DecidableEq, Repr

/-- The parts of the Netlify event the handler inspects; `body = none`
models a body `JSON.parse` rejects. -/
structure Event2 where
  httpMethod : String
  body : Option ReqBody
deriving DecidableEq, Repr

/-- Collaborators of the saved-settings handler: `extractContent`
(total — it catches internally and returns either the 3000-char text or
its own error string) and the OpenAI call on the full prompt (`.error`
models a thrown API error or the 15 s timeout race). -/
structure W2 where
  extractContent : String → String
  openai : String → Except String String

/-- Embeds JavaScript `a || b` for an optional string field: `b` when
the field is absent or the empty string (both falsy). -/
def jsOr (s : Option String) (dflt : String) : String :=
  match s with
  | some v => if v == "" then dflt else v
  | none => dflt

/-- The `allContent` accumulation of the per-URL loop (lines 294–306):
every URL contributes a labelled block, since `extractContent` is
total. -/
def allContentOf (w : W2) (limitedUrls : List String) : String :=
  limitedUrls.foldl
    (fun acc u => acc ++ "\n\n=== Content from " ++ u ++ " ===\n" ++ w.extractContent u) ""

/-- The content-size cap of lines 317–320. -/
def truncContent (allContent : String) : String :=
  if allContent.length > 4000 then jsTake allContent 4000 ++ "\n\n[Content truncated]"
  else allContent

/-- The default prompt template of lines 323–328; interpolating an
absent `region` prints `undefined`, as JavaScript template literals
do. -/
def defaultPrompt (regionField : Option String) : String :=
  "Provide a brief drought analysis for " ++
    (match regionField with | some r => r | none => "undefined") ++
    " based on the following content. Focus on:\n1. Current drought conditions\n2. Impact on agriculture\n3. Key concerns\n\nKeep the response concise and structured."

/-- The `fullPrompt` of line 330. -/
def fullPromptOf (body : ReqBody) (allContent : String) : String :=
  jsOr body.custom_prompt (defaultPrompt body.region) ++ "\n\nContent:\n" ++
    truncContent allContent

/-- Embeds the saved-settings handler (lines 236–389) as a transition on
the module-level `savedData`: result is the new `savedData` and the
response status code.  Branches in source order: OPTIONS preflight,
missing API key, unparsable body, missing/empty `urls`, empty extracted
content, OpenAI failure (thrown, caught at line 378), success — only the
last reassigns `savedData`, to the first two URLs and the prompt/region
fields. -/
def handler2 (saved : SavedData) (w : W2) (apiKeySet : Bool) (ev : Event2) :
    SavedData × Nat :=
  if ev.httpMethod == "OPTIONS" then (saved, 200)
  else if !apiKeySet then (saved, 500)
  else
    match ev.body with
    | none => (saved, 400)
    | some body =>
      match body.urls with
      | none => (saved, 400)
      | some urls =>
        if urls.isEmpty then (saved, 400)
        else if jsTrim (allContentOf w (urls.take 2)) == "" then (saved, 500)
        else
          match w.openai (fullPromptOf body (allContentOf w (urls.take 2))) with
          | .error _ => (saved, 500)
          | .ok _ =>
            ({ urls := urls.take 2, custom_prompt := jsOr body.custom_prompt "",
               region := jsOr body.region "Global Overview" }, 200)

/-- Claim C10: error atomicity of the module-level `savedData`.  Any
request that does not end in a 200 response leaves `savedData` exactly
as it was, and conversely any mutation of `savedData` can only happen on
the 200 path, which is reached only after the crawl loop completed and
the OpenAI call succeeded. -/
theorem c10_saved_atomic (saved : SavedData) (w : W2) (apiKeySet : Bool) (ev : Event2) :
    ((handler2 saved w apiKeySet ev).2 ≠ 200 → (handler2 saved w apiKeySet ev).1 = saved) ∧
    ((handler2 saved w apiKeySet ev).1 ≠ saved → (handler2 saved w apiKeySet ev).2 = 200) := by
  have key : (handler2 saved w apiKeySet ev).1 = saved ∨
      (handler2 saved w apiKeySet ev).2 = 200 := by
    rw [handler2]
    repeat' split
    all_goals first
      | (left; rfl)
      | (right; rfl)
  constructor
  · intro h
    rcases key with hk | hk
    · exact hk
    · exact absurd hk h
  · intro h
    rcases key with hk | hk
    · exact absurd hk h
    · exact hk

/-- Collaborator for the C10 witness. -/
def wC10 : W2 where
  extractContent _ := "text from page"
  openai _ := .ok "analysis"

/-- Claim C10, witness: a request rejected for a missing API key leaves
`savedData` untouched. -/
theorem c10_witness :
    (handler2 ⟨[], "", "Global Overview"⟩ wC10 false
        ⟨"POST", some ⟨some ["http://a.example/p"], none, none⟩⟩).2 ≠ 200 ∧
    (handler2 ⟨[], "", "Global Overview"⟩ wC10 false
        ⟨"POST", some ⟨some ["http://a.example/p"], none, none⟩⟩).1 =
      ⟨[], "", "Global Overview"⟩ :=
  ⟨by decide,
    (c10_saved_atomic ⟨[], "", "Global Overview"⟩ wC10 false
      ⟨"POST", some ⟨some ["http://a.example/p"], none, none⟩⟩).1 (by decide)⟩

end AB
